import Mathlib

/-!
Verification of the tuple write path of the postgres datastore
(`internal/datastore/postgres/tuple.go`): a shallow embedding of
`WriteTuples` and the statements it satisfies.

The database is modelled as a list of stored rows plus a transaction-id
counter.  Database failures (connection, statement execution, commit) are
injected through a `DbFaults` record; `WriteTuples` returns the result,
the trace of database commands it issued, and the store visible after the
call (the original store on every failure path, since the deferred
rollback discards the transaction).
-/

/-- Namespace, object id and relation — the Go `ObjectAndRelation` message.
The Go field `Namespace` is called `nspace` here because `namespace` is a
Lean keyword. -/
structure ObjectAndRelation where
  nspace : String
  objectId : String
  relation : String
deriving DecidableEq, Repr

/-- The Go `RelationTuple` message: object-and-relation plus the user's
userset (the only `User` variant this write path reads, via
`GetUserset()`). -/
structure RelationTuple where
  objectAndRelation : ObjectAndRelation
  userset : ObjectAndRelation
deriving DecidableEq, Repr

/-- Operation tags of the Go `RelationTupleUpdate` enum.  `UNKNOWN` stands
for every tag other than `CREATE`, `TOUCH` and `DELETE` (the enum's zero
value and any future tag), none of which the code inspects. -/
inductive RelationTupleUpdateOp
  | UNKNOWN
  | CREATE
  | TOUCH
  | DELETE
deriving DecidableEq, Repr

/-- The Go `RelationTupleUpdate` message: an operation tag and a tuple. -/
structure RelationTupleUpdate where
  operation : RelationTupleUpdateOp
  tuple : RelationTuple
deriving DecidableEq, Repr

/-- Modelled from the spec: the sentinel stored in `deletedAt` of a live
row (`liveDeletedTxnID` is defined outside this file; the spec calls it
`LIVE_SENTINEL`).  Its concrete value is irrelevant; max int64 is used. -/
def liveDeletedTxnID : Nat := 9223372036854775807

/-- One persisted row of the tuple table: the six key columns (as a
`RelationTuple`), `createdTxn` and `deletedTxn` (`liveDeletedTxnID` when
the row is live). -/
structure StoredRow where
  tuple : RelationTuple
  createdTxn : Nat
  deletedTxn : Nat
deriving DecidableEq, Repr

/-- The datastore state: the rows of the tuple table, and the id the next
created transaction will receive (the transaction table's serial). -/
structure Datastore where
  rows : List StoredRow
  nextTxnID : Nat
deriving DecidableEq, Repr

/-- Errors `WriteTuples` returns: `preconditionFailed` carries only the
offending tuple (`datastore.NewPreconditionFailedErr(tpl)`), and
`unableToWriteTuples` wraps an underlying cause with the single format
string `errUnableToWriteTuples` ("unable to write tuples: %w"). -/
inductive WriteError
  | preconditionFailed (tuple : RelationTuple)
  | unableToWriteTuples (cause : String)
deriving DecidableEq, Repr

/-- Database commands issued by `WriteTuples`, in order: the existence
query of a precondition, creation of the new transaction row, execution of
one close (soft-delete) update, execution of the single batched insert,
and the commit. -/
inductive DbOp
  | queryExists (tuple : RelationTuple)
  | allocTxn (txnID : Nat)
  | execClose (tuple : RelationTuple) (txnID : Nat)
  | execInsert (tuples : List RelationTuple) (txnID : Nat)
  | commit
deriving DecidableEq, Repr

/-- Injected database failures.  `none` everywhere means the engine
performs every command; a `some cause` makes the corresponding command
fail with that cause.  `queryFaults` and `execCloseFaults` are keyed by
the tuple the statement is built from. -/
structure DbFaults where
  beginFault : Option String
  queryFaults : RelationTuple → Option String
  txnFault : Option String
  execCloseFaults : RelationTuple → Option String
  execInsertFault : Option String
  commitFault : Option String

/-- A fault assignment under which every database command succeeds. -/
def noFaults : DbFaults :=
  { beginFault := none
    queryFaults := fun _ => none
    txnFault := none
    execCloseFaults := fun _ => none
    execInsertFault := none
    commitFault := none }

/-- The Go `exactTupleClause`: equality on all six key columns. -/
def exactTupleClause (tpl : RelationTuple) (row : RelationTuple) : Bool :=
  row.objectAndRelation.nspace == tpl.objectAndRelation.nspace &&
  row.objectAndRelation.objectId == tpl.objectAndRelation.objectId &&
  row.objectAndRelation.relation == tpl.objectAndRelation.relation &&
  row.userset.nspace == tpl.userset.nspace &&
  row.userset.objectId == tpl.userset.objectId &&
  row.userset.relation == tpl.userset.relation

/-- The precondition loop of `WriteTuples`.  For each precondition it runs
`queryTupleExists.Where(exactTupleClause(tpl)).Limit(1)` — note the query
selects from the tuple table with no `deletedTxn` filter, so it matches
live and soft-deleted rows alike.  `pgx.ErrNoRows` becomes
`preconditionFailed`; any other query error is wrapped.  Returns the
issued queries and the error that stopped the loop, if any. -/
def checkPreconditions (rows : List StoredRow) (faults : DbFaults) :
    List RelationTuple → List DbOp × Option WriteError
  | [] => ([], none)
  | tpl :: rest =>
    match faults.queryFaults tpl with
    | some cause => ([], some (WriteError.unableToWriteTuples cause))
    | none =>
      if rows.any (fun r => exactTupleClause tpl r.tuple) then
        let res := checkPreconditions rows faults rest
        (DbOp.queryExists tpl :: res.1, res.2)
      else
        ([DbOp.queryExists tpl], some (WriteError.preconditionFailed tpl))

/-- Modelled from the spec: `createNewTransaction` (defined in the
datastore package outside this file) inserts a row into the transaction
table and returns its serial id — "a strictly increasing identifier per
committed transaction".  It returns the current counter; the counter is
advanced only when the transaction commits. -/
def createNewTransaction (ds : Datastore) : Nat := ds.nextTxnID

/-- Modelled from the spec: `revisionFromTransaction` (defined outside
this file) maps a committed transaction id to the returned revision,
"derived deterministically and monotonically from a committed transaction
identifier"; modelled as the identity on ids. -/
def revisionFromTransaction (txnID : Nat) : Nat := txnID

/-- Effect of the `deleteTuple` update on one row: when `deletedTxn`
equals `liveDeletedTxnID` and the key columns match
`exactTupleClause(tpl)`, `deletedTxn` is set to the new transaction id;
otherwise the row is untouched. -/
def closeRowOne (newTxnID : Nat) (tpl : RelationTuple) (r : StoredRow) :
    StoredRow :=
  if r.deletedTxn == liveDeletedTxnID && exactTupleClause tpl r.tuple then
    { r with deletedTxn := newTxnID }
  else r

/-- Effect on the tuple table of executing the `deleteTuple` update for
one tuple: `closeRowOne` applied to every row. -/
def deleteTupleExec (newTxnID : Nat) (tpl : RelationTuple)
    (rows : List StoredRow) : List StoredRow :=
  rows.map (closeRowOne newTxnID tpl)

/-- The second `if` of the Go mutation loop's body: a `TOUCH` or `CREATE`
appends the tuple's row to the pending bulk insert (`bulkWrite.Values`)
and sets `bulkWriteHasValues`. -/
def stageInsert (mutation : RelationTupleUpdate)
    (bulk : List RelationTuple) (hasValues : Bool) :
    List RelationTuple × Bool :=
  if mutation.operation = RelationTupleUpdateOp.TOUCH ∨
      mutation.operation = RelationTupleUpdateOp.CREATE then
    (bulk ++ [mutation.tuple], true)
  else (bulk, hasValues)

/-- The mutation loop of `WriteTuples`.  Per mutation, in the loop's
order: a `TOUCH` or `DELETE` executes the close update immediately (which
may fail), then `stageInsert` runs the loop body's second `if`.  Returns
the issued commands, the table as the transaction sees it, the
accumulated bulk rows, the `bulkWriteHasValues` flag, and the first close
failure. -/
def processMutations (faults : DbFaults) (newTxnID : Nat) :
    List RelationTupleUpdate → List StoredRow → List RelationTuple → Bool →
    List DbOp × List StoredRow × List RelationTuple × Bool × Option String
  | [], rows, bulk, hasValues => ([], rows, bulk, hasValues, none)
  | mutation :: rest, rows, bulk, hasValues =>
    let tpl := mutation.tuple
    if mutation.operation = RelationTupleUpdateOp.TOUCH ∨
        mutation.operation = RelationTupleUpdateOp.DELETE then
      match faults.execCloseFaults tpl with
      | some cause => ([], rows, bulk, hasValues, some cause)
      | none =>
        let rows1 := deleteTupleExec newTxnID tpl rows
        let staged := stageInsert mutation bulk hasValues
        let next := processMutations faults newTxnID rest rows1 staged.1 staged.2
        (DbOp.execClose tpl newTxnID :: next.1, next.2)
    else
      let staged := stageInsert mutation bulk hasValues
      processMutations faults newTxnID rest rows staged.1 staged.2

/-- A freshly inserted row: created at the new transaction, live. -/
def insertedRow (newTxnID : Nat) (tpl : RelationTuple) : StoredRow :=
  { tuple := tpl, createdTxn := newTxnID, deletedTxn := liveDeletedTxnID }

/-- The Go `WriteTuples`.  Begins a transaction (rollback deferred),
checks every precondition with `queryTupleExists`, calls
`createNewTransaction`, runs the mutation loop (closes executed in place,
inserts accumulated), executes the single batched insert only if
`bulkWriteHasValues`, commits, and returns
`revisionFromTransaction(newTxnID)`.  Every failure returns
`datastore.NoRevision` with the error and, because of the deferred
rollback, leaves the store as it was.  The result is (outcome, issued
commands, store visible after the call). -/
def WriteTuples (ds : Datastore) (faults : DbFaults)
    (preconditions : List RelationTuple)
    (mutations : List RelationTupleUpdate) :
    Except WriteError Nat × List DbOp × Datastore :=
  match faults.beginFault with
  | some cause => (Except.error (WriteError.unableToWriteTuples cause), [], ds)
  | none =>
    let pre := checkPreconditions ds.rows faults preconditions
    match pre.2 with
    | some err => (Except.error err, pre.1, ds)
    | none =>
      match faults.txnFault with
      | some cause =>
        (Except.error (WriteError.unableToWriteTuples cause), pre.1, ds)
      | none =>
        let newTxnID := createNewTransaction ds
        let muts := processMutations faults newTxnID mutations ds.rows [] false
        let opsSoFar := pre.1 ++ DbOp.allocTxn newTxnID :: muts.1
        match muts.2.2.2.2 with
        | some cause =>
          (Except.error (WriteError.unableToWriteTuples cause), opsSoFar, ds)
        | none =>
          if muts.2.2.2.1 then
            match faults.execInsertFault with
            | some cause =>
              (Except.error (WriteError.unableToWriteTuples cause), opsSoFar, ds)
            | none =>
              let finalRows :=
                muts.2.1 ++ muts.2.2.1.map (insertedRow newTxnID)
              match faults.commitFault with
              | some cause =>
                (Except.error (WriteError.unableToWriteTuples cause),
                  opsSoFar ++ [DbOp.execInsert muts.2.2.1 newTxnID], ds)
              | none =>
                (Except.ok (revisionFromTransaction newTxnID),
                  opsSoFar ++ [DbOp.execInsert muts.2.2.1 newTxnID, DbOp.commit],
                  { rows := finalRows, nextTxnID := newTxnID + 1 })
          else
            match faults.commitFault with
            | some cause =>
              (Except.error (WriteError.unableToWriteTuples cause), opsSoFar, ds)
            | none =>
              (Except.ok (revisionFromTransaction newTxnID),
                opsSoFar ++ [DbOp.commit],
                { rows := muts.2.1, nextTxnID := newTxnID + 1 })

/-! ### Derived shapes of a successful run

The following definitions restate, in closed form, what the loops of
`WriteTuples` produce when no command fails; the lemmas below prove the
correspondence. -/

/-- The tuples staged for the bulk insert, in mutation order: one entry
per `TOUCH` or `CREATE` mutation. -/
def stagedTuples : List RelationTupleUpdate → List RelationTuple
  | [] => []
  | mutation :: rest =>
    if mutation.operation = RelationTupleUpdateOp.TOUCH ∨
        mutation.operation = RelationTupleUpdateOp.CREATE then
      mutation.tuple :: stagedTuples rest
    else stagedTuples rest

/-- The close commands issued by the mutation loop, in mutation order:
one per `TOUCH` or `DELETE` mutation, stamped with the new transaction. -/
def closeOps (newTxnID : Nat) : List RelationTupleUpdate → List DbOp
  | [] => []
  | mutation :: rest =>
    if mutation.operation = RelationTupleUpdateOp.TOUCH ∨
        mutation.operation = RelationTupleUpdateOp.DELETE then
      DbOp.execClose mutation.tuple newTxnID :: closeOps newTxnID rest
    else closeOps newTxnID rest

/-- Cumulative effect of the close updates of a mutation list on one
row. -/
def applyClosesRow (newTxnID : Nat) :
    List RelationTupleUpdate → StoredRow → StoredRow
  | [], r => r
  | mutation :: rest, r =>
    if mutation.operation = RelationTupleUpdateOp.TOUCH ∨
        mutation.operation = RelationTupleUpdateOp.DELETE then
      applyClosesRow newTxnID rest (closeRowOne newTxnID mutation.tuple r)
    else applyClosesRow newTxnID rest r

/-- Cumulative effect of the close updates of a mutation list on the
table. -/
def applyCloses (newTxnID : Nat) (mutations : List RelationTupleUpdate)
    (rows : List StoredRow) : List StoredRow :=
  rows.map (applyClosesRow newTxnID mutations)

/-- Number of live rows whose key columns match the given tuple. -/
def liveCount (k : RelationTuple) (rows : List StoredRow) : Nat :=
  rows.countP fun r =>
    exactTupleClause k r.tuple && r.deletedTxn == liveDeletedTxnID

/-- Number of staged insertion rows whose key columns match the given
tuple: how many `TOUCH`/`CREATE` mutations target that key. -/
def stagedCount (k : RelationTuple) (mutations : List RelationTupleUpdate) :
    Nat :=
  (stagedTuples mutations).countP fun t => exactTupleClause k t

/-- Some mutation in the list schedules a close for the given key. -/
def closerPresent (k : RelationTuple)
    (mutations : List RelationTupleUpdate) : Prop :=
  ∃ mu ∈ mutations,
    (mu.operation = RelationTupleUpdateOp.TOUCH ∨
      mu.operation = RelationTupleUpdateOp.DELETE) ∧ mu.tuple = k

/-- The at-most-one-live-row-per-key invariant of the store. -/
def atMostOneLivePerKey (rows : List StoredRow) : Prop :=
  ∀ k, liveCount k rows ≤ 1

/-- Recognizes the transaction-creation command in a trace. -/
def isAllocOp : DbOp → Bool
  | DbOp.allocTxn _ => true
  | _ => false

/-- Recognizes a batched-insert command in a trace. -/
def isInsertOp : DbOp → Bool
  | DbOp.execInsert _ _ => true
  | _ => false

/-! ### Basic lemmas -/

lemma exactTupleClause_iff (tpl row : RelationTuple) :
    exactTupleClause tpl row = true ↔ row = tpl := by
  obtain ⟨⟨a, b, c⟩, ⟨d, e, f⟩⟩ := row
  obtain ⟨⟨a', b', c'⟩, ⟨d', e', f'⟩⟩ := tpl
  simp [exactTupleClause, and_assoc]

lemma closeRowOne_tuple (n : Nat) (tpl : RelationTuple) (r : StoredRow) :
    (closeRowOne n tpl r).tuple = r.tuple := by
  unfold closeRowOne
  split <;> rfl

lemma closeRowOne_deletedTxn (n : Nat) (tpl : RelationTuple)
    (r : StoredRow) :
    (closeRowOne n tpl r).deletedTxn = r.deletedTxn ∨
      (closeRowOne n tpl r).deletedTxn = n := by
  unfold closeRowOne
  split
  · exact Or.inr rfl
  · exact Or.inl rfl

lemma closeRowOne_of_dead (n : Nat) (tpl : RelationTuple) (r : StoredRow)
    (h : r.deletedTxn ≠ liveDeletedTxnID) : closeRowOne n tpl r = r := by
  unfold closeRowOne
  rw [if_neg]
  simp [h]

lemma applyClosesRow_tuple (n : Nat) (m : List RelationTupleUpdate)
    (r : StoredRow) : (applyClosesRow n m r).tuple = r.tuple := by
  induction m generalizing r with
  | nil => rfl
  | cons mu rest ih =>
    unfold applyClosesRow
    split
    · rw [ih, closeRowOne_tuple]
    · exact ih r

lemma applyClosesRow_deletedTxn (n : Nat) (m : List RelationTupleUpdate)
    (r : StoredRow) :
    (applyClosesRow n m r).deletedTxn = r.deletedTxn ∨
      (applyClosesRow n m r).deletedTxn = n := by
  induction m generalizing r with
  | nil => exact Or.inl rfl
  | cons mu rest ih =>
    unfold applyClosesRow
    split
    · rcases ih (closeRowOne n mu.tuple r) with h | h
      · rw [h]
        exact closeRowOne_deletedTxn n mu.tuple r
      · exact Or.inr h
    · exact ih r

lemma applyClosesRow_of_dead (n : Nat) (m : List RelationTupleUpdate)
    (r : StoredRow) (h : r.deletedTxn ≠ liveDeletedTxnID) :
    applyClosesRow n m r = r := by
  induction m with
  | nil => rfl
  | cons mu rest ih =>
    unfold applyClosesRow
    split
    · rw [closeRowOne_of_dead n mu.tuple r h, ih]
    · exact ih

lemma applyCloses_nil (n : Nat) (rows : List StoredRow) :
    applyCloses n [] rows = rows := by
  simp [applyCloses, applyClosesRow]

lemma applyCloses_cons (n : Nat) (mu : RelationTupleUpdate)
    (rest : List RelationTupleUpdate) (rows : List StoredRow) :
    applyCloses n (mu :: rest) rows =
      if mu.operation = RelationTupleUpdateOp.TOUCH ∨
          mu.operation = RelationTupleUpdateOp.DELETE then
        applyCloses n rest (deleteTupleExec n mu.tuple rows)
      else applyCloses n rest rows := by
  by_cases hc : mu.operation = RelationTupleUpdateOp.TOUCH ∨
      mu.operation = RelationTupleUpdateOp.DELETE
  · simp only [if_pos hc, applyCloses, deleteTupleExec, List.map_map]
    apply List.map_congr_left
    intro r _
    simp [applyClosesRow, hc, Function.comp]
  · simp only [if_neg hc, applyCloses]
    apply List.map_congr_left
    intro r _
    simp [applyClosesRow, hc]

lemma stageInsert_pos (mu : RelationTupleUpdate) (bulk : List RelationTuple)
    (hv : Bool)
    (hs : mu.operation = RelationTupleUpdateOp.TOUCH ∨
      mu.operation = RelationTupleUpdateOp.CREATE) :
    stageInsert mu bulk hv = (bulk ++ [mu.tuple], true) := by
  simp [stageInsert, hs]

lemma stageInsert_neg (mu : RelationTupleUpdate) (bulk : List RelationTuple)
    (hv : Bool)
    (hs : ¬(mu.operation = RelationTupleUpdateOp.TOUCH ∨
      mu.operation = RelationTupleUpdateOp.CREATE)) :
    stageInsert mu bulk hv = (bulk, hv) := by
  simp [stageInsert, hs]

lemma checkPreconditions_cons_fail (rows : List StoredRow) (f : DbFaults)
    (tpl : RelationTuple) (rest : List RelationTuple) (c : String)
    (hf : f.queryFaults tpl = some c) :
    checkPreconditions rows f (tpl :: rest) =
      ([], some (WriteError.unableToWriteTuples c)) := by
  simp [checkPreconditions, hf]

lemma checkPreconditions_cons_found (rows : List StoredRow) (f : DbFaults)
    (tpl : RelationTuple) (rest : List RelationTuple)
    (hf : f.queryFaults tpl = none)
    (he : rows.any (fun r => exactTupleClause tpl r.tuple) = true) :
    checkPreconditions rows f (tpl :: rest) =
      (DbOp.queryExists tpl :: (checkPreconditions rows f rest).1,
        (checkPreconditions rows f rest).2) := by
  simp [checkPreconditions, hf, he]

lemma checkPreconditions_cons_missing (rows : List StoredRow) (f : DbFaults)
    (tpl : RelationTuple) (rest : List RelationTuple)
    (hf : f.queryFaults tpl = none)
    (he : ¬rows.any (fun r => exactTupleClause tpl r.tuple) = true) :
    checkPreconditions rows f (tpl :: rest) =
      ([DbOp.queryExists tpl],
        some (WriteError.preconditionFailed tpl)) := by
  simp [checkPreconditions, hf, he]

lemma processMutations_cons_close_fail (f : DbFaults) (n : Nat)
    (mu : RelationTupleUpdate) (rest : List RelationTupleUpdate)
    (rows : List StoredRow) (bulk : List RelationTuple) (hv : Bool)
    (c : String)
    (hc : mu.operation = RelationTupleUpdateOp.TOUCH ∨
      mu.operation = RelationTupleUpdateOp.DELETE)
    (hf : f.execCloseFaults mu.tuple = some c) :
    processMutations f n (mu :: rest) rows bulk hv =
      ([], rows, bulk, hv, some c) := by
  simp [processMutations, hc, hf]

lemma processMutations_cons_close_ok (f : DbFaults) (n : Nat)
    (mu : RelationTupleUpdate) (rest : List RelationTupleUpdate)
    (rows : List StoredRow) (bulk : List RelationTuple) (hv : Bool)
    (hc : mu.operation = RelationTupleUpdateOp.TOUCH ∨
      mu.operation = RelationTupleUpdateOp.DELETE)
    (hf : f.execCloseFaults mu.tuple = none) :
    processMutations f n (mu :: rest) rows bulk hv =
      (DbOp.execClose mu.tuple n ::
          (processMutations f n rest (deleteTupleExec n mu.tuple rows)
            (stageInsert mu bulk hv).1 (stageInsert mu bulk hv).2).1,
        (processMutations f n rest (deleteTupleExec n mu.tuple rows)
            (stageInsert mu bulk hv).1 (stageInsert mu bulk hv).2).2) := by
  simp [processMutations, hc, hf]

lemma processMutations_cons_noclose (f : DbFaults) (n : Nat)
    (mu : RelationTupleUpdate) (rest : List RelationTupleUpdate)
    (rows : List StoredRow) (bulk : List RelationTuple) (hv : Bool)
    (hc : ¬(mu.operation = RelationTupleUpdateOp.TOUCH ∨
      mu.operation = RelationTupleUpdateOp.DELETE)) :
    processMutations f n (mu :: rest) rows bulk hv =
      processMutations f n rest rows
        (stageInsert mu bulk hv).1 (stageInsert mu bulk hv).2 := by
  simp [processMutations, hc]

lemma checkPreconditions_ops (rows : List StoredRow) (f : DbFaults)
    (p : List RelationTuple) :
    ∀ op ∈ (checkPreconditions rows f p).1, ∃ t, op = DbOp.queryExists t := by
  induction p with
  | nil => simp [checkPreconditions]
  | cons tpl rest ih =>
    unfold checkPreconditions
    cases hf : f.queryFaults tpl with
    | some cause => simp
    | none =>
      by_cases he : rows.any (fun r => exactTupleClause tpl r.tuple)
      · simp only [if_pos he]
        intro op hop
        rcases List.mem_cons.mp hop with h | h
        · exact ⟨tpl, h⟩
        · exact ih op h
      · simp only [if_neg he]
        intro op hop
        rcases List.mem_singleton.mp hop with h
        exact ⟨tpl, h⟩

lemma checkPreconditions_none_ops (rows : List StoredRow) (f : DbFaults)
    (p : List RelationTuple)
    (h : (checkPreconditions rows f p).2 = none) :
    (checkPreconditions rows f p).1 = p.map DbOp.queryExists := by
  induction p with
  | nil => rfl
  | cons tpl rest ih =>
    cases hf : f.queryFaults tpl with
    | some cause =>
      rw [checkPreconditions_cons_fail rows f tpl rest cause hf] at h
      simp at h
    | none =>
      by_cases he : rows.any (fun r => exactTupleClause tpl r.tuple) = true
      · rw [checkPreconditions_cons_found rows f tpl rest hf he] at h ⊢
        simpa using ih h
      · rw [checkPreconditions_cons_missing rows f tpl rest hf he] at h
        simp at h

lemma checkPreconditions_error (rows : List StoredRow) (f : DbFaults)
    (p : List RelationTuple) (e : WriteError)
    (h : (checkPreconditions rows f p).2 = some e) :
    (∃ t ∈ p, e = WriteError.preconditionFailed t) ∨
      ∃ t ∈ p, ∃ c, f.queryFaults t = some c ∧
        e = WriteError.unableToWriteTuples c := by
  induction p with
  | nil => simp [checkPreconditions] at h
  | cons tpl rest ih =>
    unfold checkPreconditions at h
    cases hf : f.queryFaults tpl with
    | some cause =>
      rw [hf] at h
      simp only [Option.some.injEq] at h
      exact Or.inr ⟨tpl, List.mem_cons_self tpl rest, cause, hf, h.symm⟩
    | none =>
      rw [hf] at h
      by_cases he : rows.any (fun r => exactTupleClause tpl r.tuple)
      · rw [if_pos he] at h
        rcases ih h with ⟨t, ht, he'⟩ | ⟨t, ht, c, hc, he'⟩
        · exact Or.inl ⟨t, List.mem_cons_of_mem tpl ht, he'⟩
        · exact Or.inr ⟨t, List.mem_cons_of_mem tpl ht, c, hc, he'⟩
      · rw [if_neg he] at h
        simp only [Option.some.injEq] at h
        exact Or.inl ⟨tpl, List.mem_cons_self tpl rest, h.symm⟩

lemma processMutations_error (f : DbFaults) (n : Nat)
    (m : List RelationTupleUpdate) (rows : List StoredRow)
    (bulk : List RelationTuple) (hv : Bool) (c : String)
    (h : (processMutations f n m rows bulk hv).2.2.2.2 = some c) :
    ∃ mu ∈ m, f.execCloseFaults mu.tuple = some c := by
  induction m generalizing rows bulk hv with
  | nil => simp [processMutations] at h
  | cons mu rest ih =>
    unfold processMutations at h
    by_cases hc : mu.operation = RelationTupleUpdateOp.TOUCH ∨
        mu.operation = RelationTupleUpdateOp.DELETE
    · rw [if_pos hc] at h
      cases hf : f.execCloseFaults mu.tuple with
      | some cause =>
        rw [hf] at h
        simp only [Option.some.injEq] at h
        exact ⟨mu, List.mem_cons_self mu rest, by rw [hf, h]⟩
      | none =>
        rw [hf] at h
        simp only at h
        rcases ih _ _ _ h with ⟨mu', hmu', hf'⟩
        exact ⟨mu', List.mem_cons_of_mem mu hmu', hf'⟩
    · rw [if_neg hc] at h
      simp only at h
      rcases ih _ _ _ h with ⟨mu', hmu', hf'⟩
      exact ⟨mu', List.mem_cons_of_mem mu hmu', hf'⟩

lemma processMutations_ok_eq (f : DbFaults) (n : Nat)
    (m : List RelationTupleUpdate) (rows : List StoredRow)
    (bulk : List RelationTuple) (hv : Bool)
    (h : (processMutations f n m rows bulk hv).2.2.2.2 = none) :
    processMutations f n m rows bulk hv =
      (closeOps n m, applyCloses n m rows, bulk ++ stagedTuples m,
        hv || !(stagedTuples m).isEmpty, none) := by
  induction m generalizing rows bulk hv with
  | nil =>
    simp [processMutations, closeOps, stagedTuples, applyCloses_nil]
  | cons mu rest ih =>
    by_cases hc : mu.operation = RelationTupleUpdateOp.TOUCH ∨
        mu.operation = RelationTupleUpdateOp.DELETE
    · cases hf : f.execCloseFaults mu.tuple with
      | some cause =>
        rw [processMutations_cons_close_fail f n mu rest rows bulk hv cause
          hc hf] at h
        simp at h
      | none =>
        rw [processMutations_cons_close_ok f n mu rest rows bulk hv hc hf]
          at h ⊢
        simp only at h
        rw [ih _ _ _ h, applyCloses_cons, if_pos hc]
        by_cases hs : mu.operation = RelationTupleUpdateOp.TOUCH ∨
            mu.operation = RelationTupleUpdateOp.CREATE
        · rw [stageInsert_pos mu bulk hv hs]
          simp [closeOps, hc, stagedTuples, hs, List.append_assoc]
        · rw [stageInsert_neg mu bulk hv hs]
          simp [closeOps, hc, stagedTuples, hs]
    · rw [processMutations_cons_noclose f n mu rest rows bulk hv hc] at h ⊢
      rw [ih _ _ _ h, applyCloses_cons, if_neg hc]
      by_cases hs : mu.operation = RelationTupleUpdateOp.TOUCH ∨
          mu.operation = RelationTupleUpdateOp.CREATE
      · rw [stageInsert_pos mu bulk hv hs]
        simp [closeOps, hc, stagedTuples, hs, List.append_assoc]
      · rw [stageInsert_neg mu bulk hv hs]
        simp [closeOps, hc, stagedTuples, hs]

/-- One of the injected faults carries this cause. -/
def injectedCause (f : DbFaults) (c : String) : Prop :=
  f.beginFault = some c ∨ f.txnFault = some c ∨ f.execInsertFault = some c ∨
    f.commitFault = some c ∨ (∃ t, f.queryFaults t = some c) ∨
    ∃ t, f.execCloseFaults t = some c

/-- Complete case analysis of one `WriteTuples` run: either some command
failed — then the visible store is unchanged and the error is a
`preconditionFailed` naming a precondition, or the wrapped cause of an
injected fault — or every command succeeded and the result, trace and
final store have the closed forms built from `closeOps`, `stagedTuples`
and `applyCloses`. -/
lemma WriteTuples_main (ds : Datastore) (f : DbFaults)
    (p : List RelationTuple) (m : List RelationTupleUpdate) :
    ((WriteTuples ds f p m).2.2 = ds ∧
      ∃ e, (WriteTuples ds f p m).1 = Except.error e ∧
        ((∃ t ∈ p, e = WriteError.preconditionFailed t) ∨
          ∃ c, e = WriteError.unableToWriteTuples c ∧ injectedCause f c)) ∨
    ((WriteTuples ds f p m).1 =
        Except.ok (revisionFromTransaction ds.nextTxnID) ∧
      (WriteTuples ds f p m).2.1 =
        p.map DbOp.queryExists ++ DbOp.allocTxn ds.nextTxnID ::
          (closeOps ds.nextTxnID m ++
            (if (stagedTuples m).isEmpty then []
              else [DbOp.execInsert (stagedTuples m) ds.nextTxnID]) ++
            [DbOp.commit]) ∧
      (WriteTuples ds f p m).2.2 =
        { rows := applyCloses ds.nextTxnID m ds.rows ++
            (stagedTuples m).map (insertedRow ds.nextTxnID),
          nextTxnID := ds.nextTxnID + 1 }) := by
  cases hb : f.beginFault with
  | some c =>
    refine Or.inl ⟨by simp [WriteTuples, hb], WriteError.unableToWriteTuples c,
      by simp [WriteTuples, hb], Or.inr ⟨c, rfl, Or.inl hb⟩⟩
  | none =>
  cases hp : (checkPreconditions ds.rows f p).2 with
  | some e =>
    refine Or.inl ⟨by simp [WriteTuples, hb, hp], e,
      by simp [WriteTuples, hb, hp], ?_⟩
    rcases checkPreconditions_error ds.rows f p e hp with h1 | ⟨t, _, c, hc, he⟩
    · exact Or.inl h1
    · exact Or.inr ⟨c, he,
        Or.inr (Or.inr (Or.inr (Or.inr (Or.inl ⟨t, hc⟩))))⟩
  | none =>
  cases ht : f.txnFault with
  | some c =>
    refine Or.inl ⟨by simp [WriteTuples, hb, hp, ht],
      WriteError.unableToWriteTuples c,
      by simp [WriteTuples, hb, hp, ht],
      Or.inr ⟨c, rfl, Or.inr (Or.inl ht)⟩⟩
  | none =>
  cases hm : (processMutations f (createNewTransaction ds) m
      ds.rows [] false).2.2.2.2 with
  | some c =>
    refine Or.inl ⟨by simp [WriteTuples, hb, hp, ht, hm],
      WriteError.unableToWriteTuples c,
      by simp [WriteTuples, hb, hp, ht, hm], ?_⟩
    rcases processMutations_error f (createNewTransaction ds) m ds.rows []
        false c hm with ⟨mu, _, hf'⟩
    exact Or.inr ⟨c, rfl,
      Or.inr (Or.inr (Or.inr (Or.inr (Or.inr ⟨mu.tuple, hf'⟩))))⟩
  | none =>
  have hP := processMutations_ok_eq f (createNewTransaction ds) m ds.rows []
    false hm
  have hpre := checkPreconditions_none_ops ds.rows f p hp
  simp only [createNewTransaction] at hP
  by_cases hst : (stagedTuples m).isEmpty = true
  · cases hcf : f.commitFault with
    | some c =>
      refine Or.inl ⟨by simp [WriteTuples, hb, hp, ht, hP, hst, hcf,
          createNewTransaction],
        WriteError.unableToWriteTuples c,
        by simp [WriteTuples, hb, hp, ht, hP, hst, hcf,
          createNewTransaction],
        Or.inr ⟨c, rfl, Or.inr (Or.inr (Or.inr (Or.inl hcf)))⟩⟩
    | none =>
      refine Or.inr ⟨?_, ?_, ?_⟩
      · simp [WriteTuples, hb, hp, ht, hP, hst, hcf, createNewTransaction]
      · simp [WriteTuples, hb, hp, ht, hP, hst, hcf, createNewTransaction,
          hpre, List.isEmpty_iff.mp hst]
      · simp [WriteTuples, hb, hp, ht, hP, hst, hcf, createNewTransaction,
          List.isEmpty_iff.mp hst]
  · cases hins : f.execInsertFault with
    | some c =>
      refine Or.inl ⟨by simp [WriteTuples, hb, hp, ht, hP, hst, hins,
          createNewTransaction],
        WriteError.unableToWriteTuples c,
        by simp [WriteTuples, hb, hp, ht, hP, hst, hins,
          createNewTransaction],
        Or.inr ⟨c, rfl, Or.inr (Or.inr (Or.inl hins))⟩⟩
    | none =>
      cases hcf : f.commitFault with
      | some c =>
        refine Or.inl ⟨by simp [WriteTuples, hb, hp, ht, hP, hst, hins, hcf,
            createNewTransaction],
          WriteError.unableToWriteTuples c,
          by simp [WriteTuples, hb, hp, ht, hP, hst, hins, hcf,
            createNewTransaction],
          Or.inr ⟨c, rfl, Or.inr (Or.inr (Or.inr (Or.inl hcf)))⟩⟩
      | none =>
        refine Or.inr ⟨?_, ?_, ?_⟩
        · simp [WriteTuples, hb, hp, ht, hP, hst, hins, hcf,
            createNewTransaction]
        · simp [WriteTuples, hb, hp, ht, hP, hst, hins, hcf,
            createNewTransaction, hpre]
        · simp [WriteTuples, hb, hp, ht, hP, hst, hins, hcf,
            createNewTransaction]

/-- Success shape: a run returning `ok r` returns the revision of the
newly created transaction, issues exactly the precondition queries, the
transaction creation, the closes, at most one batched insert and the
commit, in that order, and commits the closed rows plus the staged
insertions. -/
lemma WriteTuples_ok_shape (ds : Datastore) (f : DbFaults)
    (p : List RelationTuple) (m : List RelationTupleUpdate) (r : Nat)
    (h : (WriteTuples ds f p m).1 = Except.ok r) :
    r = revisionFromTransaction ds.nextTxnID ∧
    (WriteTuples ds f p m).2.1 =
      p.map DbOp.queryExists ++ DbOp.allocTxn ds.nextTxnID ::
        (closeOps ds.nextTxnID m ++
          (if (stagedTuples m).isEmpty then []
            else [DbOp.execInsert (stagedTuples m) ds.nextTxnID]) ++
          [DbOp.commit]) ∧
    (WriteTuples ds f p m).2.2 =
      { rows := applyCloses ds.nextTxnID m ds.rows ++
          (stagedTuples m).map (insertedRow ds.nextTxnID),
        nextTxnID := ds.nextTxnID + 1 } := by
  rcases WriteTuples_main ds f p m with ⟨_, e, he, _⟩ | ⟨h1, h2, h3⟩
  · rw [he] at h
    simp at h
  · rw [h1] at h
    refine ⟨?_, h2, h3⟩
    simpa using h.symm

/-- Rollback: a run returning an error leaves the visible store exactly
as it was. -/
lemma WriteTuples_error_state (ds : Datastore) (f : DbFaults)
    (p : List RelationTuple) (m : List RelationTupleUpdate) (e : WriteError)
    (h : (WriteTuples ds f p m).1 = Except.error e) :
    (WriteTuples ds f p m).2.2 = ds := by
  rcases WriteTuples_main ds f p m with ⟨h1, _⟩ | ⟨h1, _, _⟩
  · exact h1
  · rw [h1] at h
    simp at h

lemma closeOps_mem (n : Nat) (m : List RelationTupleUpdate) :
    ∀ op ∈ closeOps n m, ∃ t, op = DbOp.execClose t n := by
  induction m with
  | nil => simp [closeOps]
  | cons mu rest ih =>
    by_cases hc : mu.operation = RelationTupleUpdateOp.TOUCH ∨
        mu.operation = RelationTupleUpdateOp.DELETE
    · rw [closeOps, if_pos hc]
      intro op hop
      rcases List.mem_cons.mp hop with h | h
      · exact ⟨mu.tuple, h⟩
      · exact ih op h
    · rw [closeOps, if_neg hc]
      exact ih

lemma closeOps_countP (n : Nat) (m : List RelationTupleUpdate)
    (q : DbOp → Bool) (hq : ∀ t, q (DbOp.execClose t n) = false) :
    (closeOps n m).countP q = 0 := by
  rw [List.countP_eq_zero]
  intro op hop
  rcases closeOps_mem n m op hop with ⟨t, ht⟩
  rw [ht, hq]
  simp

/-! ### Concrete inputs used in the closed theorems -/

/-- An example tuple: alice views doc1. -/
def tplA : RelationTuple :=
  ⟨⟨"document", "doc1", "viewer"⟩, ⟨"user", "alice", "..."⟩⟩

/-- An example tuple: bob views doc2. -/
def tplB : RelationTuple :=
  ⟨⟨"document", "doc2", "viewer"⟩, ⟨"user", "bob", "..."⟩⟩

/-- An example tuple: carol edits doc3. -/
def tplC : RelationTuple :=
  ⟨⟨"document", "doc3", "editor"⟩, ⟨"user", "carol", "..."⟩⟩

/-- An example tuple: dave owns folder f1. -/
def tplD : RelationTuple :=
  ⟨⟨"folder", "f1", "owner"⟩, ⟨"user", "dave", "..."⟩⟩

/-- An example tuple: eve owns folder f2. -/
def tplE : RelationTuple :=
  ⟨⟨"folder", "f2", "owner"⟩, ⟨"user", "eve", "..."⟩⟩

/-- A store whose only row for `tplA` was soft-deleted at transaction 2. -/
def softDeletedStore : Datastore := ⟨[⟨tplA, 1, 2⟩], 3⟩

/-- Faults making only the batched insert fail. -/
def execInsertFaulty (c : String) : DbFaults :=
  { noFaults with execInsertFault := some c }

/-- Faults making only the commit fail. -/
def commitFaulty (c : String) : DbFaults :=
  { noFaults with commitFault := some c }

/-! ### The claims -/

/-- C1: in `softDeletedStore` no stored row for `tplA` is live, yet a
call with `tplA` as its sole precondition succeeds instead of failing
with `PreconditionFailed`: `queryTupleExists` carries no
`deletedTxn = liveDeletedTxnID` filter, so a soft-deleted row satisfies
the precondition check.  This contradicts the spec, which requires a
*live* stored row. -/
theorem precondition_passes_on_soft_deleted_row :
    (∀ r ∈ softDeletedStore.rows, r.deletedTxn ≠ liveDeletedTxnID) ∧
    (WriteTuples softDeletedStore noFaults [tplA] []).1 = Except.ok 3 := by
  constructor
  · decide
  · rfl

/-- C2: when a precondition check fails (the tuple is absent, or the
query itself errors), `WriteTuples` returns that error, the visible store
is unchanged, and the trace contains nothing but precondition queries —
in particular no transaction creation, no close, no insert and no
commit. -/
theorem WriteTuples_precondition_failure_atomic (ds : Datastore)
    (f : DbFaults) (p : List RelationTuple) (m : List RelationTupleUpdate)
    (e : WriteError) (hb : f.beginFault = none)
    (hp : (checkPreconditions ds.rows f p).2 = some e) :
    (WriteTuples ds f p m).1 = Except.error e ∧
    (WriteTuples ds f p m).2.2 = ds ∧
    ∀ op ∈ (WriteTuples ds f p m).2.1, ∃ t, op = DbOp.queryExists t := by
  refine ⟨by simp [WriteTuples, hb, hp], by simp [WriteTuples, hb, hp], ?_⟩
  have h3 : (WriteTuples ds f p m).2.1 = (checkPreconditions ds.rows f p).1 := by
    simp [WriteTuples, hb, hp]
  rw [h3]
  exact checkPreconditions_ops ds.rows f p

/-- Witness for C2: an empty store, precondition `tplB`, one `CREATE`
mutation. -/
theorem WriteTuples_precondition_failure_atomic_witness :
    (WriteTuples ⟨[], 1⟩ noFaults [tplB]
        [⟨RelationTupleUpdateOp.CREATE, tplA⟩]).1 =
      Except.error (WriteError.preconditionFailed tplB) ∧
    (WriteTuples ⟨[], 1⟩ noFaults [tplB]
        [⟨RelationTupleUpdateOp.CREATE, tplA⟩]).2.2 = ⟨[], 1⟩ ∧
    ∀ op ∈ (WriteTuples ⟨[], 1⟩ noFaults [tplB]
        [⟨RelationTupleUpdateOp.CREATE, tplA⟩]).2.1,
      ∃ t, op = DbOp.queryExists t :=
  WriteTuples_precondition_failure_atomic ⟨[], 1⟩ noFaults [tplB]
    [⟨RelationTupleUpdateOp.CREATE, tplA⟩]
    (WriteError.preconditionFailed tplB) rfl rfl

/-- C10: a mutation whose operation tag is neither `CREATE` nor `DELETE`
nor `TOUCH` is silently skipped: inserting it anywhere in the mutation
list changes nothing — not the result, not the issued commands, not the
final store. -/
theorem WriteTuples_ignores_unknown_operation (ds : Datastore)
    (f : DbFaults) (p : List RelationTuple)
    (m1 m2 : List RelationTupleUpdate) (t : RelationTuple) :
    WriteTuples ds f p
        (m1 ++ ⟨RelationTupleUpdateOp.UNKNOWN, t⟩ :: m2) =
      WriteTuples ds f p (m1 ++ m2) := by
  have hc : ¬((⟨RelationTupleUpdateOp.UNKNOWN, t⟩ :
      RelationTupleUpdate).operation = RelationTupleUpdateOp.TOUCH ∨
      (⟨RelationTupleUpdateOp.UNKNOWN, t⟩ :
      RelationTupleUpdate).operation = RelationTupleUpdateOp.DELETE) := by
    simp
  have hs : ¬((⟨RelationTupleUpdateOp.UNKNOWN, t⟩ :
      RelationTupleUpdate).operation = RelationTupleUpdateOp.TOUCH ∨
      (⟨RelationTupleUpdateOp.UNKNOWN, t⟩ :
      RelationTupleUpdate).operation = RelationTupleUpdateOp.CREATE) := by
    simp
  have key : ∀ (n : Nat) (rows : List StoredRow) (bulk : List RelationTuple)
      (hv : Bool),
      processMutations f n (m1 ++ ⟨RelationTupleUpdateOp.UNKNOWN, t⟩ :: m2)
          rows bulk hv =
        processMutations f n (m1 ++ m2) rows bulk hv := by
    induction m1 with
    | nil =>
      intro n rows bulk hv
      rw [List.nil_append, List.nil_append,
        processMutations_cons_noclose f n _ m2 rows bulk hv hc,
        stageInsert_neg _ _ _ hs]
    | cons mu rest ih =>
      intro n rows bulk hv
      rw [List.cons_append, List.cons_append]
      by_cases hcm : mu.operation = RelationTupleUpdateOp.TOUCH ∨
          mu.operation = RelationTupleUpdateOp.DELETE
      · cases hf : f.execCloseFaults mu.tuple with
        | some c =>
          rw [processMutations_cons_close_fail f n mu _ rows bulk hv c hcm hf,
            processMutations_cons_close_fail f n mu _ rows bulk hv c hcm hf]
        | none =>
          rw [processMutations_cons_close_ok f n mu _ rows bulk hv hcm hf,
            processMutations_cons_close_ok f n mu _ rows bulk hv hcm hf, ih]
      · rw [processMutations_cons_noclose f n mu _ rows bulk hv hcm,
          processMutations_cons_noclose f n mu _ rows bulk hv hcm, ih]
  simp only [WriteTuples, key]

/-- Every command in the success trace is a precondition query, the
transaction creation, a close stamped with the new transaction, the
single batched insert of all staged rows, or the commit. -/
lemma trace_mem_classify (n : Nat) (p : List RelationTuple)
    (m : List RelationTupleUpdate) (op : DbOp)
    (hop : op ∈ p.map DbOp.queryExists ++ DbOp.allocTxn n ::
      (closeOps n m ++
        (if (stagedTuples m).isEmpty then []
          else [DbOp.execInsert (stagedTuples m) n]) ++ [DbOp.commit])) :
    (∃ t, op = DbOp.queryExists t) ∨ op = DbOp.allocTxn n ∨
      (∃ t, op = DbOp.execClose t n) ∨
      op = DbOp.execInsert (stagedTuples m) n ∨ op = DbOp.commit := by
  by_cases hst : (stagedTuples m).isEmpty
  all_goals
    simp only [hst, if_pos, if_neg, List.mem_append, List.mem_cons,
      List.mem_map, List.mem_singleton, List.not_mem_nil, if_true, if_false,
      Bool.not_eq_true, or_false, false_or] at hop
  · rcases hop with ⟨t, _, ht⟩ | hop | hop | hop
    · exact Or.inl ⟨t, ht.symm⟩
    · exact Or.inr (Or.inl hop)
    · rcases closeOps_mem n m op hop with ⟨t, ht⟩
      exact Or.inr (Or.inr (Or.inl ⟨t, ht⟩))
    · exact Or.inr (Or.inr (Or.inr (Or.inr hop)))
  · rcases hop with ⟨t, _, ht⟩ | hop | hop | hop
    · exact Or.inl ⟨t, ht.symm⟩
    · exact Or.inr (Or.inl hop)
    · rcases hop with hop | hop
      · rcases closeOps_mem n m op hop with ⟨t, ht⟩
        exact Or.inr (Or.inr (Or.inl ⟨t, ht⟩))
      · exact Or.inr (Or.inr (Or.inr (Or.inl hop)))
    · exact Or.inr (Or.inr (Or.inr (Or.inr hop)))

/-- C3: in a successful run with mutations, the trace is exactly the
precondition queries, the transaction creation, every close produced by a
`DELETE` or `TOUCH`, then — only if at least one insertion row was
staged — one single batched insert carrying all staged rows, then the
commit.  In particular every close precedes the batched insert, and no
insert at all is issued when nothing was staged. -/
theorem WriteTuples_closes_before_single_insert (ds : Datastore)
    (f : DbFaults) (p : List RelationTuple) (m : List RelationTupleUpdate)
    (r : Nat) (_hm : m ≠ []) (h : (WriteTuples ds f p m).1 = Except.ok r) :
    (WriteTuples ds f p m).2.1 =
      p.map DbOp.queryExists ++ DbOp.allocTxn ds.nextTxnID ::
        (closeOps ds.nextTxnID m ++
          (if (stagedTuples m).isEmpty then []
            else [DbOp.execInsert (stagedTuples m) ds.nextTxnID]) ++
          [DbOp.commit]) ∧
    (∀ op ∈ closeOps ds.nextTxnID m,
      ∃ t, op = DbOp.execClose t ds.nextTxnID) ∧
    (WriteTuples ds f p m).2.1.countP isInsertOp =
      (if (stagedTuples m).isEmpty then 0 else 1) := by
  obtain ⟨-, h2, -⟩ := WriteTuples_ok_shape ds f p m r h
  refine ⟨h2, closeOps_mem _ _, ?_⟩
  rw [h2]
  by_cases hst : (stagedTuples m).isEmpty <;>
    simp [hst, List.countP_cons, List.countP_append, List.countP_map,
      isInsertOp, Function.comp,
      closeOps_countP ds.nextTxnID m isInsertOp (fun t => rfl)]

/-- Witness for C3: one `TOUCH` on an empty store — the close precedes
the single insert, which precedes the commit. -/
theorem WriteTuples_closes_before_single_insert_witness :
    (WriteTuples ⟨[], 2⟩ noFaults []
        [⟨RelationTupleUpdateOp.TOUCH, tplA⟩]).2.1 =
      [DbOp.allocTxn 2, DbOp.execClose tplA 2,
        DbOp.execInsert [tplA] 2, DbOp.commit] := by
  have hshape := WriteTuples_closes_before_single_insert ⟨[], 2⟩ noFaults []
    [⟨RelationTupleUpdateOp.TOUCH, tplA⟩] 2 (by simp) rfl
  exact hshape.1.trans (by rfl)

/-- C5: a successful run creates the transaction exactly once, after all
precondition queries and before every close and the insert; every close
and the batched insert are stamped with that id, every inserted row is
created at it, and the returned revision is derived from it. -/
theorem WriteTuples_single_revision (ds : Datastore) (f : DbFaults)
    (p : List RelationTuple) (m : List RelationTupleUpdate) (r : Nat)
    (h : (WriteTuples ds f p m).1 = Except.ok r) :
    r = revisionFromTransaction ds.nextTxnID ∧
    (WriteTuples ds f p m).2.1 =
      p.map DbOp.queryExists ++ DbOp.allocTxn ds.nextTxnID ::
        (closeOps ds.nextTxnID m ++
          (if (stagedTuples m).isEmpty then []
            else [DbOp.execInsert (stagedTuples m) ds.nextTxnID]) ++
          [DbOp.commit]) ∧
    (WriteTuples ds f p m).2.1.countP isAllocOp = 1 ∧
    (∀ t n', DbOp.execClose t n' ∈ (WriteTuples ds f p m).2.1 →
      n' = ds.nextTxnID) ∧
    (∀ ts n', DbOp.execInsert ts n' ∈ (WriteTuples ds f p m).2.1 →
      ts = stagedTuples m ∧ n' = ds.nextTxnID) ∧
    (WriteTuples ds f p m).2.2.rows =
      applyCloses ds.nextTxnID m ds.rows ++
        (stagedTuples m).map (insertedRow ds.nextTxnID) := by
  obtain ⟨h1, h2, h3⟩ := WriteTuples_ok_shape ds f p m r h
  refine ⟨h1, h2, ?_, ?_, ?_, by rw [h3]⟩
  · rw [h2]
    by_cases hst : (stagedTuples m).isEmpty <;>
      simp [hst, List.countP_cons, List.countP_append, List.countP_map,
        isAllocOp, Function.comp,
        closeOps_countP ds.nextTxnID m isAllocOp (fun t => rfl)]
  · intro t n' hmem
    rw [h2] at hmem
    rcases trace_mem_classify ds.nextTxnID p m _ hmem with
      ⟨x, hx⟩ | hx | ⟨x, hx⟩ | hx | hx
    · simp at hx
    · simp at hx
    · simp only [DbOp.execClose.injEq] at hx
      exact hx.2
    · simp at hx
    · simp at hx
  · intro ts n' hmem
    rw [h2] at hmem
    rcases trace_mem_classify ds.nextTxnID p m _ hmem with
      ⟨x, hx⟩ | hx | ⟨x, hx⟩ | hx | hx
    · simp at hx
    · simp at hx
    · simp at hx
    · simp only [DbOp.execInsert.injEq] at hx
      exact hx
    · simp at hx

/-- Witness for C5: a `CREATE` on an empty store allocates exactly one
transaction id. -/
theorem WriteTuples_single_revision_witness :
    (WriteTuples ⟨[], 9⟩ noFaults []
        [⟨RelationTupleUpdateOp.CREATE, tplB⟩]).2.1.countP isAllocOp = 1 :=
  (WriteTuples_single_revision ⟨[], 9⟩ noFaults []
    [⟨RelationTupleUpdateOp.CREATE, tplB⟩] 9 rfl).2.2.1

/-! ### Liveness counting -/

lemma liveCount_append (k : RelationTuple) (rows1 rows2 : List StoredRow) :
    liveCount k (rows1 ++ rows2) = liveCount k rows1 + liveCount k rows2 :=
  List.countP_append _ _ _

lemma liveCount_staged (k : RelationTuple) (n : Nat)
    (m : List RelationTupleUpdate) :
    liveCount k ((stagedTuples m).map (insertedRow n)) = stagedCount k m := by
  rw [liveCount, List.countP_map, stagedCount]
  apply List.countP_congr
  intro t _
  simp [insertedRow, Function.comp]

lemma deleteTupleExec_no_live (n : Nat) (k : RelationTuple)
    (rows : List StoredRow) (hlive : liveCount k rows = 0) :
    deleteTupleExec n k rows = rows := by
  rw [deleteTupleExec]
  have hall := List.countP_eq_zero.mp hlive
  have hid : ∀ r ∈ rows, closeRowOne n k r = id r := by
    intro r hr
    have hr' := hall r hr
    rw [Bool.and_eq_true] at hr'
    rw [closeRowOne, if_neg]
    · rfl
    · intro hcond
      rw [Bool.and_eq_true] at hcond
      exact hr' ⟨hcond.2, hcond.1⟩
  exact (List.map_congr_left hid).trans (List.map_id rows)

/-- A live row whose key a `TOUCH` or `DELETE` of the call targets ends the
close phase with `deletedTxn` set to the new transaction id. -/
lemma applyClosesRow_closes_eq (n : Nat) (k : RelationTuple)
    (hn : n ≠ liveDeletedTxnID) :
    ∀ (m : List RelationTupleUpdate) (r : StoredRow),
      closerPresent k m → exactTupleClause k r.tuple = true →
      r.deletedTxn = liveDeletedTxnID →
      applyClosesRow n m r = { r with deletedTxn := n } := by
  intro m
  induction m with
  | nil =>
    intro r hcl _ _
    rcases hcl with ⟨mu, hmu, _⟩
    simp at hmu
  | cons mu rest ih =>
    intro r hcl hk hrl
    have hkeq : r.tuple = k := (exactTupleClause_iff k r.tuple).mp hk
    by_cases hop : mu.operation = RelationTupleUpdateOp.TOUCH ∨
        mu.operation = RelationTupleUpdateOp.DELETE
    · rw [applyClosesRow, if_pos hop]
      by_cases hmt : exactTupleClause mu.tuple r.tuple = true
      · have hclose : closeRowOne n mu.tuple r = { r with deletedTxn := n } := by
          rw [closeRowOne, if_pos]
          rw [Bool.and_eq_true, hrl]
          exact ⟨by simp, hmt⟩
        rw [hclose, applyClosesRow_of_dead]
        exact hn
      · have hclose : closeRowOne n mu.tuple r = r := by
          rw [closeRowOne, if_neg]
          rw [Bool.and_eq_true]
          intro hcond
          exact hmt hcond.2
        rw [hclose]
        rcases hcl with ⟨mu', hmu', hop', htp'⟩
        rcases List.mem_cons.mp hmu' with heq | hmem
        · exfalso
          apply hmt
          have hmk : mu.tuple = k := heq ▸ htp'
          rw [hmk]
          exact hk
        · exact ih r ⟨mu', hmem, hop', htp'⟩ hk hrl
    · rw [applyClosesRow, if_neg hop]
      rcases hcl with ⟨mu', hmu', hop', htp'⟩
      rcases List.mem_cons.mp hmu' with heq | hmem
      · exact absurd (heq ▸ hop') hop
      · exact ih r ⟨mu', hmem, hop', htp'⟩ hk hrl

lemma liveCount_applyCloses_zero (n : Nat) (k : RelationTuple)
    (m : List RelationTupleUpdate) (rows : List StoredRow)
    (hn : n ≠ liveDeletedTxnID) (hcl : closerPresent k m) :
    liveCount k (applyCloses n m rows) = 0 := by
  rw [liveCount, applyCloses, List.countP_map, List.countP_eq_zero]
  intro r _
  simp only [Function.comp, Bool.and_eq_true, not_and]
  rw [applyClosesRow_tuple]
  intro hk
  by_cases hrl : r.deletedTxn = liveDeletedTxnID
  · rw [applyClosesRow_closes_eq n k hn m r hcl hk hrl]
    simp [hn]
  · rw [applyClosesRow_of_dead n m r hrl]
    simp [hrl]

lemma liveCount_applyCloses_le (n : Nat) (k : RelationTuple)
    (m : List RelationTupleUpdate) (rows : List StoredRow)
    (hn : n ≠ liveDeletedTxnID) :
    liveCount k (applyCloses n m rows) ≤ liveCount k rows := by
  rw [liveCount, liveCount, applyCloses, List.countP_map]
  apply List.countP_mono_left
  intro r _ hpr
  simp only [Function.comp, Bool.and_eq_true] at hpr
  rw [applyClosesRow_tuple] at hpr
  rcases applyClosesRow_deletedTxn n m r with hsame | hset
  · rw [hsame] at hpr
    rw [Bool.and_eq_true]
    exact hpr
  · exfalso
    rw [hset] at hpr
    have := hpr.2
    simp [hn] at this

lemma stagedTuples_mem_of (mu : RelationTupleUpdate)
    (m : List RelationTupleUpdate) (hmu : mu ∈ m)
    (hop : mu.operation = RelationTupleUpdateOp.TOUCH ∨
      mu.operation = RelationTupleUpdateOp.CREATE) :
    mu.tuple ∈ stagedTuples m := by
  induction m with
  | nil => simp at hmu
  | cons mu' rest ih =>
    rcases List.mem_cons.mp hmu with heq | hmem
    · subst heq
      rw [stagedTuples, if_pos hop]
      exact List.mem_cons_self _ _
    · by_cases hop' : mu'.operation = RelationTupleUpdateOp.TOUCH ∨
          mu'.operation = RelationTupleUpdateOp.CREATE
      · rw [stagedTuples, if_pos hop']
        exact List.mem_cons_of_mem _ (ih hmem)
      · rw [stagedTuples, if_neg hop']
        exact ih hmem

lemma closeOps_mem_of (n : Nat) (mu : RelationTupleUpdate)
    (m : List RelationTupleUpdate) (hmu : mu ∈ m)
    (hop : mu.operation = RelationTupleUpdateOp.TOUCH ∨
      mu.operation = RelationTupleUpdateOp.DELETE) :
    DbOp.execClose mu.tuple n ∈ closeOps n m := by
  induction m with
  | nil => simp at hmu
  | cons mu' rest ih =>
    rcases List.mem_cons.mp hmu with heq | hmem
    · subst heq
      rw [closeOps, if_pos hop]
      exact List.mem_cons_self _ _
    · by_cases hop' : mu'.operation = RelationTupleUpdateOp.TOUCH ∨
          mu'.operation = RelationTupleUpdateOp.DELETE
      · rw [closeOps, if_pos hop']
        exact List.mem_cons_of_mem _ (ih hmem)
      · rw [closeOps, if_neg hop']
        exact ih hmem

lemma stagedCount_le_length (k : RelationTuple)
    (m : List RelationTupleUpdate) :
    stagedCount k m ≤ (stagedTuples m).length :=
  List.countP_le_length _

/-- C4 counterexample: a successful call containing a `TOUCH` for `tplC`
(twice) commits *two* live rows for that key, not exactly one: both closes
run before the single batched insert, so the second `TOUCH` closes
nothing and both staged rows arrive live. -/
theorem touch_twice_leaves_two_live_rows :
    (WriteTuples ⟨[], 7⟩ noFaults []
        [⟨RelationTupleUpdateOp.TOUCH, tplC⟩,
          ⟨RelationTupleUpdateOp.TOUCH, tplC⟩]).1 = Except.ok 7 ∧
    liveCount tplC
      (WriteTuples ⟨[], 7⟩ noFaults []
        [⟨RelationTupleUpdateOp.TOUCH, tplC⟩,
          ⟨RelationTupleUpdateOp.TOUCH, tplC⟩]).2.2.rows = 2 :=
  ⟨rfl, rfl⟩

/-- C4 (amended): every `TOUCH` mutation of a successful call schedules
both a close for its key and an insertion of a new row, stamped with the
one new transaction id; and provided the `TOUCH` is the only
insertion-producing mutation for its key, exactly one live row for that
key exists after commit, with every previously live row for the key now
closed at the very id the new row was created at. -/
theorem WriteTuples_touch_upsert (ds : Datastore) (f : DbFaults)
    (p : List RelationTuple) (m : List RelationTupleUpdate)
    (mu : RelationTupleUpdate) (r : Nat)
    (hn : ds.nextTxnID ≠ liveDeletedTxnID)
    (hmu : mu ∈ m) (hop : mu.operation = RelationTupleUpdateOp.TOUCH)
    (huniq : stagedCount mu.tuple m = 1)
    (h : (WriteTuples ds f p m).1 = Except.ok r) :
    DbOp.execClose mu.tuple ds.nextTxnID ∈ (WriteTuples ds f p m).2.1 ∧
    insertedRow ds.nextTxnID mu.tuple ∈ (WriteTuples ds f p m).2.2.rows ∧
    (∀ row ∈ ds.rows, exactTupleClause mu.tuple row.tuple = true →
      row.deletedTxn = liveDeletedTxnID →
      { row with deletedTxn := ds.nextTxnID } ∈
        (WriteTuples ds f p m).2.2.rows) ∧
    liveCount mu.tuple (WriteTuples ds f p m).2.2.rows = 1 := by
  obtain ⟨-, h2, h3⟩ := WriteTuples_ok_shape ds f p m r h
  have hopTD : mu.operation = RelationTupleUpdateOp.TOUCH ∨
      mu.operation = RelationTupleUpdateOp.DELETE := Or.inl hop
  have hopTC : mu.operation = RelationTupleUpdateOp.TOUCH ∨
      mu.operation = RelationTupleUpdateOp.CREATE := Or.inl hop
  have hcl : closerPresent mu.tuple m := ⟨mu, hmu, hopTD, rfl⟩
  refine ⟨?_, ?_, ?_, ?_⟩
  · rw [h2]
    exact List.mem_append_right _ (List.mem_cons_of_mem _
      (List.mem_append_left _ (List.mem_append_left _
        (closeOps_mem_of ds.nextTxnID mu m hmu hopTD))))
  · rw [h3]
    exact List.mem_append_right _
      (List.mem_map_of_mem _ (stagedTuples_mem_of mu m hmu hopTC))
  · intro row hrow hkrow hlive
    rw [h3]
    have hmem : applyClosesRow ds.nextTxnID m row ∈
        applyCloses ds.nextTxnID m ds.rows :=
      List.mem_map_of_mem _ hrow
    rw [applyClosesRow_closes_eq ds.nextTxnID mu.tuple hn m row hcl hkrow
      hlive] at hmem
    exact List.mem_append_left _ hmem
  · rw [h3]
    show liveCount mu.tuple (applyCloses ds.nextTxnID m ds.rows ++
      (stagedTuples m).map (insertedRow ds.nextTxnID)) = 1
    rw [liveCount_append,
      liveCount_applyCloses_zero ds.nextTxnID mu.tuple m ds.rows hn hcl,
      liveCount_staged, huniq]

/-- Witness for the amended C4: `TOUCH` of a live `tplA` leaves exactly
one live row for it. -/
theorem WriteTuples_touch_upsert_witness :
    liveCount tplA
      (WriteTuples ⟨[⟨tplA, 1, liveDeletedTxnID⟩], 5⟩ noFaults []
        [⟨RelationTupleUpdateOp.TOUCH, tplA⟩]).2.2.rows = 1 :=
  (WriteTuples_touch_upsert ⟨[⟨tplA, 1, liveDeletedTxnID⟩], 5⟩ noFaults []
    [⟨RelationTupleUpdateOp.TOUCH, tplA⟩]
    ⟨RelationTupleUpdateOp.TOUCH, tplA⟩ 5
    (by decide) (List.mem_cons_self _ _) rfl rfl rfl).2.2.2

/-- C6: deleting a key with no live row succeeds, allocates and returns
the fresh revision, and leaves the stored rows untouched — the close
update matches zero rows and is not an error. -/
theorem WriteTuples_idempotent_delete (ds : Datastore) (k : RelationTuple)
    (p : List RelationTuple)
    (hlive : liveCount k ds.rows = 0)
    (hp : (checkPreconditions ds.rows noFaults p).2 = none) :
    (WriteTuples ds noFaults p [⟨RelationTupleUpdateOp.DELETE, k⟩]).1 =
        Except.ok (revisionFromTransaction ds.nextTxnID) ∧
    (WriteTuples ds noFaults p
        [⟨RelationTupleUpdateOp.DELETE, k⟩]).2.2.rows = ds.rows ∧
    (WriteTuples ds noFaults p
        [⟨RelationTupleUpdateOp.DELETE, k⟩]).2.2.nextTxnID =
      ds.nextTxnID + 1 := by
  have hdel := deleteTupleExec_no_live ds.nextTxnID k ds.rows hlive
  have hp' := hp
  simp only [noFaults] at hp'
  refine ⟨?_, ?_, ?_⟩ <;>
    simp [WriteTuples, hp', noFaults, processMutations, stageInsert,
      createNewTransaction, hdel]

/-- Witness for C6: `DELETE` of `tplD` on an empty store. -/
theorem WriteTuples_idempotent_delete_witness :
    (WriteTuples ⟨[], 4⟩ noFaults []
        [⟨RelationTupleUpdateOp.DELETE, tplD⟩]).1 =
        Except.ok (revisionFromTransaction 4) ∧
    (WriteTuples ⟨[], 4⟩ noFaults []
        [⟨RelationTupleUpdateOp.DELETE, tplD⟩]).2.2.rows =
      ([] : List StoredRow) ∧
    (WriteTuples ⟨[], 4⟩ noFaults []
        [⟨RelationTupleUpdateOp.DELETE, tplD⟩]).2.2.nextTxnID = 5 :=
  WriteTuples_idempotent_delete ⟨[], 4⟩ tplD [] rfl rfl

/-- C7 counterexample: two `CREATE`s of the same tuple in one successful
call break the at-most-one-live-row invariant, although it held before
the call. -/
theorem create_twice_breaks_invariant :
    atMostOneLivePerKey ([] : List StoredRow) ∧
    (WriteTuples ⟨[], 4⟩ noFaults []
        [⟨RelationTupleUpdateOp.CREATE, tplD⟩,
          ⟨RelationTupleUpdateOp.CREATE, tplD⟩]).1 = Except.ok 4 ∧
    ¬ atMostOneLivePerKey (WriteTuples ⟨[], 4⟩ noFaults []
        [⟨RelationTupleUpdateOp.CREATE, tplD⟩,
          ⟨RelationTupleUpdateOp.CREATE, tplD⟩]).2.2.rows := by
  refine ⟨fun k => by simp [liveCount], rfl, fun hcon => ?_⟩
  have h1 := hcon tplD
  have h2 : liveCount tplD (WriteTuples ⟨[], 4⟩ noFaults []
      [⟨RelationTupleUpdateOp.CREATE, tplD⟩,
        ⟨RelationTupleUpdateOp.CREATE, tplD⟩]).2.2.rows = 2 := rfl
  omega

/-- C7 (amended): a successful call preserves the at-most-one-live-row
invariant provided each key is the target of at most one
insertion-producing (`CREATE`/`TOUCH`) mutation, and every key that is
both staged for insertion and currently live also has a `TOUCH` or
`DELETE` mutation closing it in the same call. -/
theorem WriteTuples_preserves_at_most_one_live (ds : Datastore)
    (f : DbFaults) (p : List RelationTuple) (m : List RelationTupleUpdate)
    (r : Nat)
    (hn : ds.nextTxnID ≠ liveDeletedTxnID)
    (hinv : atMostOneLivePerKey ds.rows)
    (huniq : ∀ k, stagedCount k m ≤ 1)
    (hclose : ∀ k, 0 < stagedCount k m → 0 < liveCount k ds.rows →
      closerPresent k m)
    (h : (WriteTuples ds f p m).1 = Except.ok r) :
    atMostOneLivePerKey (WriteTuples ds f p m).2.2.rows := by
  obtain ⟨-, -, h3⟩ := WriteTuples_ok_shape ds f p m r h
  intro k
  rw [h3]
  show liveCount k (applyCloses ds.nextTxnID m ds.rows ++
    (stagedTuples m).map (insertedRow ds.nextTxnID)) ≤ 1
  rw [liveCount_append, liveCount_staged]
  rcases Nat.eq_zero_or_pos (stagedCount k m) with hz | hpos
  · have hle := liveCount_applyCloses_le ds.nextTxnID k m ds.rows hn
    have hk := hinv k
    omega
  · have h1 : stagedCount k m = 1 := Nat.le_antisymm (huniq k) hpos
    rcases Nat.eq_zero_or_pos (liveCount k ds.rows) with hz0 | hpos0
    · have hle := liveCount_applyCloses_le ds.nextTxnID k m ds.rows hn
      omega
    · rw [liveCount_applyCloses_zero ds.nextTxnID k m ds.rows hn
        (hclose k hpos hpos0), h1]

/-- Witness for the amended C7: a single `CREATE` on an empty store keeps
the invariant. -/
theorem WriteTuples_preserves_at_most_one_live_witness :
    atMostOneLivePerKey (WriteTuples ⟨[], 12⟩ noFaults []
      [⟨RelationTupleUpdateOp.CREATE, tplE⟩]).2.2.rows :=
  WriteTuples_preserves_at_most_one_live ⟨[], 12⟩ noFaults []
    [⟨RelationTupleUpdateOp.CREATE, tplE⟩] 12
    (by decide)
    (fun k => by simp [liveCount])
    (fun k => by
      simpa using stagedCount_le_length k
        [⟨RelationTupleUpdateOp.CREATE, tplE⟩])
    (fun k _ h0 => absurd h0 (by simp [liveCount]))
    rfl

/-- C8 counterexample: a failure of the batched insert (write-execution
stage) and a failure of the commit (commit stage) with the same underlying
cause return the *identical* error value — `errUnableToWriteTuples` is a
single format string with no stage label, so a caller cannot tell the
stages apart, although the traces show the two runs really failed at
different stages. -/
theorem write_and_commit_failures_indistinguishable :
    (WriteTuples ⟨[], 2⟩ (execInsertFaulty "io failure") []
        [⟨RelationTupleUpdateOp.CREATE, tplE⟩]).1 =
      Except.error (WriteError.unableToWriteTuples "io failure") ∧
    (WriteTuples ⟨[], 2⟩ (commitFaulty "io failure") []
        [⟨RelationTupleUpdateOp.CREATE, tplE⟩]).1 =
      Except.error (WriteError.unableToWriteTuples "io failure") ∧
    DbOp.execInsert [tplE] 2 ∈
      (WriteTuples ⟨[], 2⟩ (commitFaulty "io failure") []
        [⟨RelationTupleUpdateOp.CREATE, tplE⟩]).2.1 ∧
    DbOp.execInsert [tplE] 2 ∉
      (WriteTuples ⟨[], 2⟩ (execInsertFaulty "io failure") []
        [⟨RelationTupleUpdateOp.CREATE, tplE⟩]).2.1 := by
  refine ⟨rfl, rfl, ?_, ?_⟩
  · simp [WriteTuples, commitFaulty, noFaults, checkPreconditions,
      processMutations, stageInsert, createNewTransaction]
  · simp [WriteTuples, execInsertFaulty, noFaults, checkPreconditions,
      processMutations, stageInsert, createNewTransaction]

/-- C8 (amended): every failure is either `preconditionFailed`, carrying
only the offending tuple (one of the preconditions) and never wrapping a
lower-level cause, or the one generic `unableToWriteTuples` wrapper
carrying the underlying cause of whichever command failed — with no
stage label distinguishing precondition-check, write-execution and commit
failures. -/
theorem WriteTuples_error_envelope (ds : Datastore) (f : DbFaults)
    (p : List RelationTuple) (m : List RelationTupleUpdate) (e : WriteError)
    (h : (WriteTuples ds f p m).1 = Except.error e) :
    (∃ t ∈ p, e = WriteError.preconditionFailed t) ∨
      ∃ c, e = WriteError.unableToWriteTuples c ∧ injectedCause f c := by
  rcases WriteTuples_main ds f p m with ⟨_, e', he', hcl⟩ | ⟨h1, _, _⟩
  · rw [he'] at h
    have : e' = e := by simpa using h
    subst this
    exact hcl
  · rw [h1] at h
    simp at h

/-- Witness for the amended C8: a failing precondition on an empty
store. -/
theorem WriteTuples_error_envelope_witness :
    (∃ t ∈ [tplB],
      WriteError.preconditionFailed tplB = WriteError.preconditionFailed t) ∨
      ∃ c, WriteError.preconditionFailed tplB =
          WriteError.unableToWriteTuples c ∧ injectedCause noFaults c :=
  WriteTuples_error_envelope ⟨[], 1⟩ noFaults [tplB] []
    (WriteError.preconditionFailed tplB) rfl

/-- C9: revisions are strictly monotonic across two consecutively
committed calls (the second starting from the store the first left
behind), and a failed call leaves the store — including the transaction
counter feeding future revisions — exactly as it was, so a rolled-back
allocation is never observable. -/
theorem WriteTuples_revisions_monotonic (ds : Datastore)
    (f1 f2 : DbFaults) (p1 p2 : List RelationTuple)
    (m1 m2 : List RelationTupleUpdate) (r1 r2 : Nat)
    (h1 : (WriteTuples ds f1 p1 m1).1 = Except.ok r1)
    (h2 : (WriteTuples (WriteTuples ds f1 p1 m1).2.2 f2 p2 m2).1 =
      Except.ok r2) :
    r1 < r2 ∧
    ∀ (ds' : Datastore) (f : DbFaults) (p : List RelationTuple)
      (m : List RelationTupleUpdate) (e : WriteError),
      (WriteTuples ds' f p m).1 = Except.error e →
      (WriteTuples ds' f p m).2.2 = ds' := by
  obtain ⟨hr1, -, hst1⟩ := WriteTuples_ok_shape ds f1 p1 m1 r1 h1
  obtain ⟨hr2, -, -⟩ := WriteTuples_ok_shape _ f2 p2 m2 r2 h2
  constructor
  · rw [hr1, hr2, hst1]
    simp [revisionFromTransaction]
  · intro ds' f p m e he
    exact WriteTuples_error_state ds' f p m e he

/-- Witness for C9: two consecutive creates return revisions 10 and 11;
a failed call on another store leaves it untouched. -/
theorem WriteTuples_revisions_monotonic_witness :
    (10 : Nat) < 11 ∧
    (WriteTuples ⟨[], 6⟩ (execInsertFaulty "boom") []
        [⟨RelationTupleUpdateOp.CREATE, tplA⟩]).2.2 = ⟨[], 6⟩ := by
  have hmono := WriteTuples_revisions_monotonic ⟨[], 10⟩ noFaults noFaults
    [] [] [⟨RelationTupleUpdateOp.CREATE, tplA⟩]
    [⟨RelationTupleUpdateOp.CREATE, tplB⟩] 10 11 rfl rfl
  exact ⟨hmono.1, hmono.2 ⟨[], 6⟩ (execInsertFaulty "boom") []
    [⟨RelationTupleUpdateOp.CREATE, tplA⟩]
    (WriteError.unableToWriteTuples "boom") rfl⟩
